import Mathlib

/-!
Shallow embedding of `src/easy_i2c.py` (class `EasyI2C`), an I2C convenience
wrapper for MicroPython.  The underlying `machine.I2C` driver is modelled as a
record of (possibly failing) functions; each wrapper method is embedded as a
pure Lean function that returns the Python-level outcome together with the
exact sequence of driver invocations it performed and the diagnostics it
printed.  Python `ValueError`s raised by the wrapper's validation, the
`IndexError` a too-short driver reply would raise, and re-raised `OSError`s
are the constructors of `PyError`.  Python integers are embedded as `Int`;
byte strings as `List Nat` (each element `< 256` by construction of `bytes`).
-/

namespace EasyI2C

/-- Python-level exceptions the wrapper can surface.  The three `ValueError`
cases are distinguished by which validation raised them; `osError e` is the
driver's `OSError` (payload `e`) re-raised by an `except OSError: ... raise`
block; `indexError` is the uncaught `IndexError` from subscripting a driver
reply that is shorter than expected. -/
inductive PyError
  | invalidAddress
  | invalidValue
  | invalidData
  | indexError
  | osError (e : Nat)
deriving DecidableEq

/-- One invocation of an underlying `machine.I2C` primitive, recording the
arguments exactly as the wrapper passed them. -/
inductive DriverCall
  | writeto_mem (addr reg : Int) (data : List Nat)
  | readfrom_mem (addr reg : Int) (nbytes : Nat)
  | writeto (addr : Int) (data : List Nat)
  | readfrom (addr : Int) (nbytes : Nat)
deriving DecidableEq

/-- A `print` the wrapper performs: the scan report lines, and the failure
diagnostics (each carrying the operation, device address and, where
applicable, register address that the printed message interpolates). -/
inductive Diag
  | scanHeader
  | scanAddr (addr : Int)
  | scanNone
  | writeByteFail (addr reg : Int)
  | readByteFail (addr reg : Int)
  | writeWordFail (addr reg : Int)
  | readWordFail (addr reg : Int)
  | writeBytesFail (addr reg : Int)
  | readBytesFail (addr reg : Int)
  | writeDirectFail (addr : Int)
  | readDirectFail (addr : Int)
deriving DecidableEq

/-- Model of the `machine.I2C` instance stored in `self.i2c`: the four
primitives the wrapper delegates to, each either succeeding or raising an
`OSError` with payload `Nat`, plus `scan` returning the discovered device
addresses. -/
structure Driver where
  scan : List Int
  writeto_mem : Int → Int → List Nat → Except Nat Unit
  readfrom_mem : Int → Int → Nat → Except Nat (List Nat)
  writeto : Int → List Nat → Except Nat Unit
  readfrom : Int → Nat → Except Nat (List Nat)

/-- Outcome of one wrapper method call: the returned value or raised
exception, the driver invocations made (in order), and the diagnostics
printed. -/
structure PyResult (α : Type) where
  result : Except PyError α
  calls : List DriverCall
  diags : List Diag

instance {ε α : Type} [DecidableEq ε] [DecidableEq α] : DecidableEq (Except ε α) := fun a b =>
  match a, b with
  | .ok x, .ok y => decidable_of_iff (x = y) (by simp)
  | .error e, .error f => decidable_of_iff (e = f) (by simp)
  | .ok _, .error _ => .isFalse fun h => Except.noConfusion h
  | .error _, .ok _ => .isFalse fun h => Except.noConfusion h

instance {α : Type} [DecidableEq α] : DecidableEq (PyResult α) := fun a b =>
  decidable_of_iff (a.result = b.result ∧ a.calls = b.calls ∧ a.diags = b.diags)
    (by cases a; cases b; simp)

/-- `EasyI2C._check_addr`: `if not 0 <= device_addr <= 127: raise ValueError`. -/
def _check_addr (device_addr : Int) : Except PyError Unit :=
  if ¬ (0 ≤ device_addr ∧ device_addr ≤ 127) then .error .invalidAddress else .ok ()

/-- `EasyI2C.scan(verbose=True)`: returns `self.i2c.scan()`; when `verbose`,
prints a header plus one line per address (or a not-found line). -/
def scan (i2c : Driver) (verbose : Bool) : List Int × List Diag :=
  let devices := i2c.scan
  let out : List Diag :=
    if verbose then
      if devices ≠ [] then Diag.scanHeader :: devices.map Diag.scanAddr
      else [Diag.scanNone]
    else []
  (devices, out)

/-- `EasyI2C.write_byte`: check address, check `0 <= value <= 255`, then
`writeto_mem(device_addr, reg_addr, bytes([value]))`; on `OSError` print a
diagnostic and re-raise. -/
def write_byte (i2c : Driver) (device_addr reg_addr value : Int) : PyResult Unit :=
  match _check_addr device_addr with
  | .error e => ⟨.error e, [], []⟩
  | .ok _ =>
    if ¬ (0 ≤ value ∧ value ≤ 255) then ⟨.error .invalidValue, [], []⟩
    else
      match i2c.writeto_mem device_addr reg_addr [value.toNat] with
      | .ok _ => ⟨.ok (), [.writeto_mem device_addr reg_addr [value.toNat]], []⟩
      | .error e => ⟨.error (.osError e), [.writeto_mem device_addr reg_addr [value.toNat]],
          [.writeByteFail device_addr reg_addr]⟩

/-- `EasyI2C.read_byte`: check address, then
`readfrom_mem(device_addr, reg_addr, 1)[0]`; on `OSError` print and re-raise.
A zero-length driver reply would make the `[0]` subscript raise `IndexError`
(not caught by the `except OSError` clause). -/
def read_byte (i2c : Driver) (device_addr reg_addr : Int) : PyResult Nat :=
  match _check_addr device_addr with
  | .error e => ⟨.error e, [], []⟩
  | .ok _ =>
    match i2c.readfrom_mem device_addr reg_addr 1 with
    | .ok data =>
      match data with
      | b :: _ => ⟨.ok b, [.readfrom_mem device_addr reg_addr 1], []⟩
      | [] => ⟨.error .indexError, [.readfrom_mem device_addr reg_addr 1], []⟩
    | .error e => ⟨.error (.osError e), [.readfrom_mem device_addr reg_addr 1],
        [.readByteFail device_addr reg_addr]⟩

/-- `EasyI2C.write_word`: check address, check `0 <= value <= 65535`, pack
`[(value >> 8) & 0xFF, value & 0xFF]` when `byteorder == 'big'` and the
reverse otherwise, then `writeto_mem`; on `OSError` print and re-raise.
(The Python shift/mask on the range-checked non-negative `value` coincides
with the `Nat` operations on `value.toNat`.) -/
def write_word (i2c : Driver) (device_addr reg_addr value : Int) (byteorder : String) :
    PyResult Unit :=
  match _check_addr device_addr with
  | .error e => ⟨.error e, [], []⟩
  | .ok _ =>
    if ¬ (0 ≤ value ∧ value ≤ 65535) then ⟨.error .invalidValue, [], []⟩
    else
      let data : List Nat :=
        if byteorder = "big" then [value.toNat >>> 8 &&& 0xFF, value.toNat &&& 0xFF]
        else [value.toNat &&& 0xFF, value.toNat >>> 8 &&& 0xFF]
      match i2c.writeto_mem device_addr reg_addr data with
      | .ok _ => ⟨.ok (), [.writeto_mem device_addr reg_addr data], []⟩
      | .error e => ⟨.error (.osError e), [.writeto_mem device_addr reg_addr data],
          [.writeWordFail device_addr reg_addr]⟩

/-- `EasyI2C.read_word`: check address, `readfrom_mem(..., 2)`, decode
`(data[0] << 8) | data[1]` when `byteorder == 'big'` and
`(data[1] << 8) | data[0]` otherwise; on `OSError` print and re-raise.  A
driver reply shorter than two bytes would raise `IndexError` at the
subscripts. -/
def read_word (i2c : Driver) (device_addr reg_addr : Int) (byteorder : String) :
    PyResult Nat :=
  match _check_addr device_addr with
  | .error e => ⟨.error e, [], []⟩
  | .ok _ =>
    match i2c.readfrom_mem device_addr reg_addr 2 with
    | .ok data =>
      match data with
      | b0 :: b1 :: _ =>
        ⟨.ok (if byteorder = "big" then b0 <<< 8 ||| b1 else b1 <<< 8 ||| b0),
         [.readfrom_mem device_addr reg_addr 2], []⟩
      | _ => ⟨.error .indexError, [.readfrom_mem device_addr reg_addr 2], []⟩
    | .error e => ⟨.error (.osError e), [.readfrom_mem device_addr reg_addr 2],
        [.readWordFail device_addr reg_addr]⟩

/-- The dynamic type of the Python `data` argument of `write_bytes` /
`write_direct`: a `bytes` object, a `list` of integers, or any other object. -/
inductive PyData
  | bytes (bs : List Nat)
  | list (xs : List Int)
  | other
deriving DecidableEq

/-- Python `bytes(xs)` on a list of integers: succeeds iff every element is
in `[0, 256)`, otherwise raises `ValueError`. -/
def bytesOfList (xs : List Int) : Except PyError (List Nat) :=
  if xs.all fun x => decide (0 ≤ x ∧ x < 256) then .ok (xs.map Int.toNat)
  else .error .invalidData

/-- The `isinstance` dispatch shared by `write_bytes` and `write_direct`:
a `list` is converted with `bytes(data)`, a `bytes` passes through, anything
else raises `ValueError`. -/
def coerceData (data : PyData) : Except PyError (List Nat) :=
  match data with
  | .list xs => bytesOfList xs
  | .bytes bs => .ok bs
  | .other => .error .invalidData

/-- `EasyI2C.write_bytes`: check address, coerce `data`, then
`writeto_mem(device_addr, reg_addr, data)`; on `OSError` print and re-raise. -/
def write_bytes (i2c : Driver) (device_addr reg_addr : Int) (data : PyData) : PyResult Unit :=
  match _check_addr device_addr with
  | .error e => ⟨.error e, [], []⟩
  | .ok _ =>
    match coerceData data with
    | .error e => ⟨.error e, [], []⟩
    | .ok bs =>
      match i2c.writeto_mem device_addr reg_addr bs with
      | .ok _ => ⟨.ok (), [.writeto_mem device_addr reg_addr bs], []⟩
      | .error e => ⟨.error (.osError e), [.writeto_mem device_addr reg_addr bs],
          [.writeBytesFail device_addr reg_addr]⟩

/-- `EasyI2C.read_bytes`: check address, then
`readfrom_mem(device_addr, reg_addr, nbytes)`; on `OSError` print and
re-raise. -/
def read_bytes (i2c : Driver) (device_addr reg_addr : Int) (nbytes : Nat) :
    PyResult (List Nat) :=
  match _check_addr device_addr with
  | .error e => ⟨.error e, [], []⟩
  | .ok _ =>
    match i2c.readfrom_mem device_addr reg_addr nbytes with
    | .ok data => ⟨.ok data, [.readfrom_mem device_addr reg_addr nbytes], []⟩
    | .error e => ⟨.error (.osError e), [.readfrom_mem device_addr reg_addr nbytes],
        [.readBytesFail device_addr reg_addr]⟩

/-- `EasyI2C.write_direct`: check address, coerce `data`, then
`writeto(device_addr, data)`; on `OSError` print and re-raise. -/
def write_direct (i2c : Driver) (device_addr : Int) (data : PyData) : PyResult Unit :=
  match _check_addr device_addr with
  | .error e => ⟨.error e, [], []⟩
  | .ok _ =>
    match coerceData data with
    | .error e => ⟨.error e, [], []⟩
    | .ok bs =>
      match i2c.writeto device_addr bs with
      | .ok _ => ⟨.ok (), [.writeto device_addr bs], []⟩
      | .error e => ⟨.error (.osError e), [.writeto device_addr bs],
          [.writeDirectFail device_addr]⟩

/-- `EasyI2C.read_direct`: check address, then
`readfrom(device_addr, nbytes)`; on `OSError` print and re-raise. -/
def read_direct (i2c : Driver) (device_addr : Int) (nbytes : Nat) : PyResult (List Nat) :=
  match _check_addr device_addr with
  | .error e => ⟨.error e, [], []⟩
  | .ok _ =>
    match i2c.readfrom device_addr nbytes with
    | .ok data => ⟨.ok data, [.readfrom device_addr nbytes], []⟩
    | .error e => ⟨.error (.osError e), [.readfrom device_addr nbytes],
        [.readDirectFail device_addr]⟩

/-- A driver double on which every transaction succeeds: writes are
acknowledged and a read of `n` bytes returns `n` zero bytes. -/
def okDriver : Driver where
  scan := [60, 64]
  writeto_mem := fun _ _ _ => .ok ()
  readfrom_mem := fun _ _ n => .ok (List.replicate n 0)
  writeto := fun _ _ => .ok ()
  readfrom := fun _ n => .ok (List.replicate n 0)

/-- A driver double on which every transaction raises `OSError(5)`. -/
def failDriver : Driver where
  scan := []
  writeto_mem := fun _ _ _ => .error 5
  readfrom_mem := fun _ _ _ => .error 5
  writeto := fun _ _ => .error 5
  readfrom := fun _ _ => .error 5

/-- A driver double whose register reads echo the fixed byte string `bs`. -/
def echoDriver (bs : List Nat) : Driver where
  scan := []
  writeto_mem := fun _ _ _ => .ok ()
  readfrom_mem := fun _ _ _ => .ok bs
  writeto := fun _ _ => .ok ()
  readfrom := fun _ _ => .ok bs

/-- A wrapper outcome that raised none of the three validation `ValueError`s
(it may still be a transport failure or a short-reply `IndexError`). -/
def validationFree {α : Type} (r : PyResult α) : Prop :=
  r.result ≠ .error .invalidAddress ∧ r.result ≠ .error .invalidValue ∧
    r.result ≠ .error .invalidData

theorem coerceData_error {data : PyData} {e : PyError} (h : coerceData data = .error e) :
    e = .invalidData := by
  cases data with
  | bytes bs => simp [coerceData] at h
  | list xs =>
    simp only [coerceData, bytesOfList] at h
    split at h <;> simp_all
  | other =>
    simp only [coerceData, Except.error.injEq] at h
    exact h.symm

theorem check_addr_fail {a : Int} (h : ¬ (0 ≤ a ∧ a ≤ 127)) :
    _check_addr a = .error .invalidAddress := by
  simp [_check_addr, h]

theorem check_addr_ok {a : Int} (h : 0 ≤ a ∧ a ≤ 127) :
    _check_addr a = .ok () := by
  simp [_check_addr, h.1, h.2]

theorem write_byte_bad_addr (d : Driver) {a : Int} (r v : Int)
    (h : ¬ (0 ≤ a ∧ a ≤ 127)) :
    write_byte d a r v = ⟨.error .invalidAddress, [], []⟩ := by
  simp [write_byte, check_addr_fail h]

theorem read_byte_bad_addr (d : Driver) {a : Int} (r : Int)
    (h : ¬ (0 ≤ a ∧ a ≤ 127)) :
    read_byte d a r = ⟨.error .invalidAddress, [], []⟩ := by
  simp [read_byte, check_addr_fail h]

theorem write_word_bad_addr (d : Driver) {a : Int} (r v : Int) (bo : String)
    (h : ¬ (0 ≤ a ∧ a ≤ 127)) :
    write_word d a r v bo = ⟨.error .invalidAddress, [], []⟩ := by
  simp [write_word, check_addr_fail h]

theorem read_word_bad_addr (d : Driver) {a : Int} (r : Int) (bo : String)
    (h : ¬ (0 ≤ a ∧ a ≤ 127)) :
    read_word d a r bo = ⟨.error .invalidAddress, [], []⟩ := by
  simp [read_word, check_addr_fail h]

theorem write_bytes_bad_addr (d : Driver) {a : Int} (r : Int) (data : PyData)
    (h : ¬ (0 ≤ a ∧ a ≤ 127)) :
    write_bytes d a r data = ⟨.error .invalidAddress, [], []⟩ := by
  simp [write_bytes, check_addr_fail h]

theorem read_bytes_bad_addr (d : Driver) {a : Int} (r : Int) (n : Nat)
    (h : ¬ (0 ≤ a ∧ a ≤ 127)) :
    read_bytes d a r n = ⟨.error .invalidAddress, [], []⟩ := by
  simp [read_bytes, check_addr_fail h]

theorem write_direct_bad_addr (d : Driver) {a : Int} (data : PyData)
    (h : ¬ (0 ≤ a ∧ a ≤ 127)) :
    write_direct d a data = ⟨.error .invalidAddress, [], []⟩ := by
  simp [write_direct, check_addr_fail h]

theorem read_direct_bad_addr (d : Driver) {a : Int} (n : Nat)
    (h : ¬ (0 ≤ a ∧ a ≤ 127)) :
    read_direct d a n = ⟨.error .invalidAddress, [], []⟩ := by
  simp [read_direct, check_addr_fail h]

theorem write_byte_good_addr (d : Driver) {a : Int} (r v : Int)
    (h : 0 ≤ a ∧ a ≤ 127) :
    (write_byte d a r v).result ≠ .error .invalidAddress := by
  simp only [write_byte, check_addr_ok h]
  split
  · simp
  · split <;> simp

theorem read_byte_good_addr (d : Driver) {a : Int} (r : Int)
    (h : 0 ≤ a ∧ a ≤ 127) :
    (read_byte d a r).result ≠ .error .invalidAddress := by
  simp only [read_byte, check_addr_ok h]
  split
  · split <;> simp
  · simp

theorem write_word_good_addr (d : Driver) {a : Int} (r v : Int) (bo : String)
    (h : 0 ≤ a ∧ a ≤ 127) :
    (write_word d a r v bo).result ≠ .error .invalidAddress := by
  simp only [write_word, check_addr_ok h]
  split
  · simp
  · split <;> simp

theorem read_word_good_addr (d : Driver) {a : Int} (r : Int) (bo : String)
    (h : 0 ≤ a ∧ a ≤ 127) :
    (read_word d a r bo).result ≠ .error .invalidAddress := by
  simp only [read_word, check_addr_ok h]
  split
  · split <;> simp
  · simp

theorem write_bytes_good_addr (d : Driver) {a : Int} (r : Int) (data : PyData)
    (h : 0 ≤ a ∧ a ≤ 127) :
    (write_bytes d a r data).result ≠ .error .invalidAddress := by
  simp only [write_bytes, check_addr_ok h]
  split
  · rename_i e heq
    simp [coerceData_error heq]
  · split <;> simp

theorem read_bytes_good_addr (d : Driver) {a : Int} (r : Int) (n : Nat)
    (h : 0 ≤ a ∧ a ≤ 127) :
    (read_bytes d a r n).result ≠ .error .invalidAddress := by
  simp only [read_bytes, check_addr_ok h]
  split <;> simp

theorem write_direct_good_addr (d : Driver) {a : Int} (data : PyData)
    (h : 0 ≤ a ∧ a ≤ 127) :
    (write_direct d a data).result ≠ .error .invalidAddress := by
  simp only [write_direct, check_addr_ok h]
  split
  · rename_i e heq
    simp [coerceData_error heq]
  · split <;> simp

theorem read_direct_good_addr (d : Driver) {a : Int} (n : Nat)
    (h : 0 ≤ a ∧ a ≤ 127) :
    (read_direct d a n).result ≠ .error .invalidAddress := by
  simp only [read_direct, check_addr_ok h]
  split <;> simp

theorem write_byte_bad_value (d : Driver) {a v : Int} (r : Int)
    (ha : 0 ≤ a ∧ a ≤ 127) (hv : ¬ (0 ≤ v ∧ v ≤ 255)) :
    write_byte d a r v = ⟨.error .invalidValue, [], []⟩ := by
  simp [write_byte, check_addr_ok ha, hv]

theorem write_byte_good_value (d : Driver) {a v : Int} (r : Int)
    (ha : 0 ≤ a ∧ a ≤ 127) (hv : 0 ≤ v ∧ v ≤ 255) :
    (write_byte d a r v).result ≠ .error .invalidValue ∧
      (write_byte d a r v).calls = [.writeto_mem a r [v.toNat]] := by
  simp only [write_byte, check_addr_ok ha]
  rw [if_neg (not_not_intro hv)]
  split <;> simp

theorem write_word_bad_value (d : Driver) {a v : Int} (r : Int) (bo : String)
    (ha : 0 ≤ a ∧ a ≤ 127) (hv : ¬ (0 ≤ v ∧ v ≤ 65535)) :
    write_word d a r v bo = ⟨.error .invalidValue, [], []⟩ := by
  simp [write_word, check_addr_ok ha, hv]

theorem write_word_calls (d : Driver) {a v : Int} (r : Int) (bo : String)
    (ha : 0 ≤ a ∧ a ≤ 127) (hv : 0 ≤ v ∧ v ≤ 65535) :
    (write_word d a r v bo).calls =
      [.writeto_mem a r (if bo = "big" then [v.toNat >>> 8 &&& 0xFF, v.toNat &&& 0xFF]
        else [v.toNat &&& 0xFF, v.toNat >>> 8 &&& 0xFF])] := by
  simp only [write_word, check_addr_ok ha]
  rw [if_neg (not_not_intro hv)]
  split <;> simp

theorem write_word_good_value (d : Driver) {a v : Int} (r : Int) (bo : String)
    (ha : 0 ≤ a ∧ a ≤ 127) (hv : 0 ≤ v ∧ v ≤ 65535) :
    (write_word d a r v bo).result ≠ .error .invalidValue ∧
      (write_word d a r v bo).result ≠ .error .invalidData := by
  simp only [write_word, check_addr_ok ha]
  rw [if_neg (not_not_intro hv)]
  split <;> simp

theorem bytesOfList_ok {xs : List Int} (h : ∀ x ∈ xs, 0 ≤ x ∧ x < 256) :
    bytesOfList xs = .ok (xs.map Int.toNat) := by
  rw [bytesOfList, if_pos]
  simp only [List.all_eq_true, decide_eq_true_eq]
  exact h

theorem bytesOfList_fail {xs : List Int} (h : ¬ ∀ x ∈ xs, 0 ≤ x ∧ x < 256) :
    bytesOfList xs = .error .invalidData := by
  rw [bytesOfList, if_neg]
  simp only [List.all_eq_true, decide_eq_true_eq]
  exact h

/-- Packing then unpacking a 16-bit value: the decode expression of
`read_word` applied to the two bytes `write_word` packs gives back the
value. -/
theorem word_roundtrip {v : Nat} (h : v < 65536) :
    ((v >>> 8 &&& 255) <<< 8) ||| (v &&& 255) = v := by
  have h1 : v &&& 255 = v % 256 := by
    have := Nat.and_pow_two_sub_one_eq_mod v 8
    norm_num at this
    exact this
  have h2 : v >>> 8 = v / 256 := by
    rw [Nat.shiftRight_eq_div_pow]
  have h3 : v / 256 < 256 := by omega
  have h4 : v >>> 8 &&& 255 = v / 256 := by
    rw [h2]
    have := Nat.and_pow_two_sub_one_eq_mod (v / 256) 8
    norm_num at this
    rw [this, Nat.mod_eq_of_lt h3]
  have h5 : v % 256 < 2 ^ 8 := by omega
  have h6 := Nat.mul_add_lt_is_or h5 (v / 256)
  rw [h1, h4, Nat.shiftLeft_eq]
  calc v / 256 * 2 ^ 8 ||| v % 256 = 2 ^ 8 * (v / 256) ||| v % 256 := by
        rw [Nat.mul_comm]
    _ = 2 ^ 8 * (v / 256) + v % 256 := h6.symm
    _ = v := by omega

theorem write_byte_good (d : Driver) {a v : Int} (r : Int)
    (ha : 0 ≤ a ∧ a ≤ 127) (hv : 0 ≤ v ∧ v ≤ 255) :
    (write_byte d a r v).calls = [.writeto_mem a r [v.toNat]] ∧
      validationFree (write_byte d a r v) := by
  unfold validationFree
  simp only [write_byte, check_addr_ok ha]
  rw [if_neg (not_not_intro hv)]
  split <;> simp

theorem read_byte_good (d : Driver) {a : Int} (r : Int) (h : 0 ≤ a ∧ a ≤ 127) :
    (read_byte d a r).calls = [.readfrom_mem a r 1] ∧ validationFree (read_byte d a r) := by
  unfold validationFree
  simp only [read_byte, check_addr_ok h]
  split
  · split <;> simp
  · simp

theorem write_word_good (d : Driver) {a v : Int} (r : Int) (bo : String)
    (ha : 0 ≤ a ∧ a ≤ 127) (hv : 0 ≤ v ∧ v ≤ 65535) :
    (∃ data, (write_word d a r v bo).calls = [.writeto_mem a r data]) ∧
      validationFree (write_word d a r v bo) := by
  refine ⟨⟨_, write_word_calls d r bo ha hv⟩, ?_⟩
  unfold validationFree
  exact ⟨write_word_good_addr d r v bo ha, (write_word_good_value d r bo ha hv).1,
    (write_word_good_value d r bo ha hv).2⟩

theorem read_word_good (d : Driver) {a : Int} (r : Int) (bo : String)
    (h : 0 ≤ a ∧ a ≤ 127) :
    (read_word d a r bo).calls = [.readfrom_mem a r 2] ∧
      validationFree (read_word d a r bo) := by
  unfold validationFree
  simp only [read_word, check_addr_ok h]
  split
  · split <;> simp
  · simp

theorem write_bytes_bytes_good (d : Driver) {a : Int} (r : Int) (bs : List Nat)
    (h : 0 ≤ a ∧ a ≤ 127) :
    (write_bytes d a r (.bytes bs)).calls = [.writeto_mem a r bs] ∧
      validationFree (write_bytes d a r (.bytes bs)) := by
  unfold validationFree
  simp only [write_bytes, check_addr_ok h, coerceData]
  split <;> simp

theorem read_bytes_good (d : Driver) {a : Int} (r : Int) (n : Nat)
    (h : 0 ≤ a ∧ a ≤ 127) :
    (read_bytes d a r n).calls = [.readfrom_mem a r n] ∧
      validationFree (read_bytes d a r n) := by
  unfold validationFree
  simp only [read_bytes, check_addr_ok h]
  split <;> simp

/-- C1: for every public operation taking a device address and every address
`addr`, if `addr` is outside `[0,127]` the operation raises `InvalidAddress`
with zero driver invocations, and if `addr` is within `[0,127]` the address
validation succeeds (no `InvalidAddress` is raised). -/
theorem addr_validation_all_operations (d : Driver) (addr reg value : Int)
    (byteorder : String) (data : PyData) (nbytes : Nat) :
    (¬ (0 ≤ addr ∧ addr ≤ 127) →
      write_byte d addr reg value = ⟨.error .invalidAddress, [], []⟩ ∧
      read_byte d addr reg = ⟨.error .invalidAddress, [], []⟩ ∧
      write_word d addr reg value byteorder = ⟨.error .invalidAddress, [], []⟩ ∧
      read_word d addr reg byteorder = ⟨.error .invalidAddress, [], []⟩ ∧
      write_bytes d addr reg data = ⟨.error .invalidAddress, [], []⟩ ∧
      read_bytes d addr reg nbytes = ⟨.error .invalidAddress, [], []⟩ ∧
      write_direct d addr data = ⟨.error .invalidAddress, [], []⟩ ∧
      read_direct d addr nbytes = ⟨.error .invalidAddress, [], []⟩) ∧
    (0 ≤ addr ∧ addr ≤ 127 →
      (write_byte d addr reg value).result ≠ .error .invalidAddress ∧
      (read_byte d addr reg).result ≠ .error .invalidAddress ∧
      (write_word d addr reg value byteorder).result ≠ .error .invalidAddress ∧
      (read_word d addr reg byteorder).result ≠ .error .invalidAddress ∧
      (write_bytes d addr reg data).result ≠ .error .invalidAddress ∧
      (read_bytes d addr reg nbytes).result ≠ .error .invalidAddress ∧
      (write_direct d addr data).result ≠ .error .invalidAddress ∧
      (read_direct d addr nbytes).result ≠ .error .invalidAddress) :=
  ⟨fun h => ⟨write_byte_bad_addr d reg value h, read_byte_bad_addr d reg h,
    write_word_bad_addr d reg value byteorder h, read_word_bad_addr d reg byteorder h,
    write_bytes_bad_addr d reg data h, read_bytes_bad_addr d reg nbytes h,
    write_direct_bad_addr d data h, read_direct_bad_addr d nbytes h⟩,
   fun h => ⟨write_byte_good_addr d reg value h, read_byte_good_addr d reg h,
    write_word_good_addr d reg value byteorder h, read_word_good_addr d reg byteorder h,
    write_bytes_good_addr d reg data h, read_bytes_good_addr d reg nbytes h,
    write_direct_good_addr d data h, read_direct_good_addr d nbytes h⟩⟩

/-- Witness for C1 at addresses 200 (out of range) and 80 (in range). -/
theorem addr_validation_all_operations_witness :
    write_byte okDriver 200 2 7 = ⟨.error .invalidAddress, [], []⟩ ∧
    (write_byte okDriver 80 2 7).result ≠ .error .invalidAddress :=
  ⟨((addr_validation_all_operations okDriver 200 2 7 "big" .other 1).1 (by decide)).1,
   ((addr_validation_all_operations okDriver 80 2 7 "big" .other 1).2 (by decide)).1⟩

/-- C2: `write_byte` raises `InvalidValue` exactly for values outside
`[0,255]` and `write_word` exactly for values outside `[0,65535]`, in both
cases with zero driver invocations; in-range values never raise
`InvalidValue`. -/
theorem value_range_validation (d : Driver) (addr reg value : Int) (byteorder : String)
    (ha : 0 ≤ addr ∧ addr ≤ 127) :
    (¬ (0 ≤ value ∧ value ≤ 255) →
      write_byte d addr reg value = ⟨.error .invalidValue, [], []⟩) ∧
    (0 ≤ value ∧ value ≤ 255 →
      (write_byte d addr reg value).result ≠ .error .invalidValue) ∧
    (¬ (0 ≤ value ∧ value ≤ 65535) →
      write_word d addr reg value byteorder = ⟨.error .invalidValue, [], []⟩) ∧
    (0 ≤ value ∧ value ≤ 65535 →
      (write_word d addr reg value byteorder).result ≠ .error .invalidValue) :=
  ⟨fun hv => write_byte_bad_value d reg ha hv,
   fun hv => (write_byte_good_value d reg ha hv).1,
   fun hv => write_word_bad_value d reg byteorder ha hv,
   fun hv => (write_word_good_value d reg byteorder ha hv).1⟩

/-- Witness for C2 at value 300 (rejected) and value 7 (accepted). -/
theorem value_range_validation_witness :
    write_byte okDriver 80 2 300 = ⟨.error .invalidValue, [], []⟩ ∧
    (write_byte okDriver 80 2 7).result ≠ .error .invalidValue :=
  ⟨(value_range_validation okDriver 80 2 300 "big" (by decide)).1 (by decide),
   (value_range_validation okDriver 80 2 7 "big" (by decide)).2.1 (by decide)⟩

/-- C3: for every in-range value, `write_word` with order `'big'` sends
exactly the two bytes `[(value >> 8) & 0xFF, value & 0xFF]` and with order
`'little'` exactly the reverse; in particular `0xABCD` packs as
`[0xAB, 0xCD]` big-endian and `[0xCD, 0xAB]` little-endian. -/
theorem word_packing (d : Driver) (addr reg value : Int)
    (ha : 0 ≤ addr ∧ addr ≤ 127) (hv : 0 ≤ value ∧ value ≤ 65535) :
    (write_word d addr reg value "big").calls =
      [.writeto_mem addr reg [value.toNat >>> 8 &&& 0xFF, value.toNat &&& 0xFF]] ∧
    (write_word d addr reg value "little").calls =
      [.writeto_mem addr reg [value.toNat &&& 0xFF, value.toNat >>> 8 &&& 0xFF]] ∧
    (write_word d addr reg 0xABCD "big").calls =
      [.writeto_mem addr reg [0xAB, 0xCD]] ∧
    (write_word d addr reg 0xABCD "little").calls =
      [.writeto_mem addr reg [0xCD, 0xAB]] := by
  refine ⟨?_, ?_, ?_, ?_⟩
  · rw [write_word_calls d reg "big" ha hv]
    simp
  · rw [write_word_calls d reg "little" ha hv]
    simp
  · rw [write_word_calls d reg "big" ha (by decide)]
    simp
    decide
  · rw [write_word_calls d reg "little" ha (by decide)]
    simp
    decide

/-- Witness for C3 with the concrete value 0xABCD. -/
theorem word_packing_witness :
    (write_word okDriver 80 2 0xABCD "big").calls = [.writeto_mem 80 2 [0xAB, 0xCD]] ∧
    (write_word okDriver 80 2 0xABCD "little").calls = [.writeto_mem 80 2 [0xCD, 0xAB]] :=
  ⟨(word_packing okDriver 80 2 0xABCD (by decide) (by decide)).2.2.1,
   (word_packing okDriver 80 2 0xABCD (by decide) (by decide)).2.2.2⟩

/-- C5: the sequence of addresses `scan` returns is independent of the
`verbose` flag, which only controls the printed report; with
`verbose = false` nothing is printed. -/
theorem scan_verbose_independent (d : Driver) (v1 v2 : Bool) :
    (scan d v1).1 = (scan d v2).1 ∧ (scan d false).2 = [] := by
  simp [scan]

/-- C9: when the device address and the value are both out of range, the
address check runs first and the operation fails with `InvalidAddress`, not
`InvalidValue`. -/
theorem addr_checked_before_value (d : Driver) (addr reg value : Int) (byteorder : String)
    (ha : ¬ (0 ≤ addr ∧ addr ≤ 127)) (_hb : ¬ (0 ≤ value ∧ value ≤ 255))
    (_hw : ¬ (0 ≤ value ∧ value ≤ 65535)) :
    (write_byte d addr reg value).result = .error .invalidAddress ∧
    (write_word d addr reg value byteorder).result = .error .invalidAddress := by
  rw [write_byte_bad_addr d reg value ha, write_word_bad_addr d reg value byteorder ha]
  exact ⟨rfl, rfl⟩

/-- Witness for C9 at address 200 and value 70000, both out of range. -/
theorem addr_checked_before_value_witness :
    (write_byte okDriver 200 2 70000).result = .error .invalidAddress ∧
    (write_word okDriver 200 2 70000 "big").result = .error .invalidAddress :=
  addr_checked_before_value okDriver 200 2 70000 "big" (by decide) (by decide) (by decide)

/-- C4: decoding is the exact inverse of encoding for the same byte-order
tag: if a driver double echoes back the two bytes `write_word` sent for
`value` under tag `order`, then `read_word` with the same tag returns
`value` (as the Python non-negative int, i.e. `value.toNat`). -/
theorem word_roundtrip_ops (d d' : Driver) (addr reg value : Int) (order : String)
    (bs : List Nat)
    (ha : 0 ≤ addr ∧ addr ≤ 127) (hv : 0 ≤ value ∧ value ≤ 65535)
    (henc : (write_word d addr reg value order).calls = [.writeto_mem addr reg bs])
    (hecho : d'.readfrom_mem addr reg 2 = .ok bs) :
    (read_word d' addr reg order).result = .ok value.toNat := by
  rw [write_word_calls d reg order ha hv] at henc
  simp only [List.cons.injEq, DriverCall.writeto_mem.injEq, and_self, true_and,
    and_true] at henc
  have hlt : value.toNat < 65536 := by omega
  by_cases ho : order = "big"
  · rw [if_pos ho] at henc
    subst henc
    simp only [read_word, check_addr_ok ha, hecho, if_pos ho]
    exact congrArg Except.ok (word_roundtrip hlt)
  · rw [if_neg ho] at henc
    subst henc
    simp only [read_word, check_addr_ok ha, hecho, if_neg ho]
    exact congrArg Except.ok (word_roundtrip hlt)

/-- Witness for C4: 0x1234 encoded big-endian and echoed back decodes to
0x1234. -/
theorem word_roundtrip_ops_witness :
    (read_word (echoDriver [0x12, 0x34]) 80 2 "big").result = .ok 0x1234 :=
  word_roundtrip_ops okDriver (echoDriver [0x12, 0x34]) 80 2 0x1234 "big" [0x12, 0x34]
    (by decide) (by decide) (by decide) (by decide)

/-- C6: `write_bytes` and `write_direct` raise `InvalidData` with zero
driver invocations when the payload is neither a byte string nor a list of
integers convertible to bytes; a convertible integer list is converted and
accepted. -/
theorem data_validation (d : Driver) (addr reg : Int) (xs : List Int)
    (ha : 0 ≤ addr ∧ addr ≤ 127) :
    (write_bytes d addr reg .other = ⟨.error .invalidData, [], []⟩ ∧
      write_direct d addr .other = ⟨.error .invalidData, [], []⟩) ∧
    (¬ (∀ x ∈ xs, 0 ≤ x ∧ x < 256) →
      write_bytes d addr reg (.list xs) = ⟨.error .invalidData, [], []⟩ ∧
      write_direct d addr (.list xs) = ⟨.error .invalidData, [], []⟩) ∧
    ((∀ x ∈ xs, 0 ≤ x ∧ x < 256) →
      (write_bytes d addr reg (.list xs)).result ≠ .error .invalidData ∧
      (write_bytes d addr reg (.list xs)).calls =
        [.writeto_mem addr reg (xs.map Int.toNat)] ∧
      (write_direct d addr (.list xs)).result ≠ .error .invalidData ∧
      (write_direct d addr (.list xs)).calls = [.writeto addr (xs.map Int.toNat)]) := by
  refine ⟨⟨?_, ?_⟩, fun h => ⟨?_, ?_⟩, fun h => ?_⟩
  · simp [write_bytes, check_addr_ok ha, coerceData]
  · simp [write_direct, check_addr_ok ha, coerceData]
  · simp [write_bytes, check_addr_ok ha, coerceData, bytesOfList_fail h]
  · simp [write_direct, check_addr_ok ha, coerceData, bytesOfList_fail h]
  · refine ⟨?_, ?_, ?_, ?_⟩ <;>
    · simp only [write_bytes, write_direct, check_addr_ok ha, coerceData,
        bytesOfList_ok h]
      split <;> simp

/-- Witness for C6 at a non-sequence payload and at the list [1, 2, 3]. -/
theorem data_validation_witness :
    write_bytes okDriver 80 2 .other = ⟨.error .invalidData, [], []⟩ ∧
    (write_bytes okDriver 80 2 (.list [1, 2, 3])).calls = [.writeto_mem 80 2 [1, 2, 3]] :=
  ⟨((data_validation okDriver 80 2 [1, 2, 3] (by decide)).1).1,
   ((data_validation okDriver 80 2 [1, 2, 3] (by decide)).2.2 (by decide)).2.1⟩

/-- C7: for validated inputs, when the driver raises `OSError e` the
operation re-raises exactly that failure (surfaced as `osError e`) after
emitting at least one diagnostic; no operation swallows the failure or
substitutes a default. -/
theorem transport_error_propagation (d : Driver) (addr reg value : Int)
    (byteorder : String) (bs : List Nat) (nbytes : Nat) (e : Nat)
    (ha : 0 ≤ addr ∧ addr ≤ 127) (hv : 0 ≤ value ∧ value ≤ 255)
    (hfwm : ∀ r data, d.writeto_mem addr r data = .error e)
    (hfrm : ∀ r n, d.readfrom_mem addr r n = .error e)
    (hfw : ∀ data, d.writeto addr data = .error e)
    (hfr : ∀ n, d.readfrom addr n = .error e) :
    ((write_byte d addr reg value).result = .error (.osError e) ∧
      (write_byte d addr reg value).diags ≠ []) ∧
    ((read_byte d addr reg).result = .error (.osError e) ∧
      (read_byte d addr reg).diags ≠ []) ∧
    ((write_word d addr reg value byteorder).result = .error (.osError e) ∧
      (write_word d addr reg value byteorder).diags ≠ []) ∧
    ((read_word d addr reg byteorder).result = .error (.osError e) ∧
      (read_word d addr reg byteorder).diags ≠ []) ∧
    ((write_bytes d addr reg (.bytes bs)).result = .error (.osError e) ∧
      (write_bytes d addr reg (.bytes bs)).diags ≠ []) ∧
    ((read_bytes d addr reg nbytes).result = .error (.osError e) ∧
      (read_bytes d addr reg nbytes).diags ≠ []) ∧
    ((write_direct d addr (.bytes bs)).result = .error (.osError e) ∧
      (write_direct d addr (.bytes bs)).diags ≠ []) ∧
    ((read_direct d addr nbytes).result = .error (.osError e) ∧
      (read_direct d addr nbytes).diags ≠ []) := by
  have hv2 : 0 ≤ value ∧ value ≤ 65535 := ⟨hv.1, by omega⟩
  refine ⟨?_, ?_, ?_, ?_, ?_, ?_, ?_, ?_⟩
  · simp [write_byte, check_addr_ok ha, hfwm, hv.1, hv.2]
  · simp [read_byte, check_addr_ok ha, hfrm]
  · simp [write_word, check_addr_ok ha, hfwm, hv2.1, hv2.2]
  · simp [read_word, check_addr_ok ha, hfrm]
  · simp [write_bytes, check_addr_ok ha, coerceData, hfwm]
  · simp [read_bytes, check_addr_ok ha, hfrm]
  · simp [write_direct, check_addr_ok ha, coerceData, hfw]
  · simp [read_direct, check_addr_ok ha, hfr]

/-- Witness for C7 on a driver double whose every transaction raises
`OSError(5)`. -/
theorem transport_error_propagation_witness :
    (write_byte failDriver 80 2 7).result = .error (.osError 5) ∧
    (write_byte failDriver 80 2 7).diags ≠ [] :=
  (transport_error_propagation failDriver 80 2 7 "big" [1] 1 5 (by decide) (by decide)
    (fun _ _ => rfl) (fun _ _ => rfl) (fun _ => rfl) (fun _ => rfl)).1

/-- C8: no register-addressed operation range-checks the register address:
for every integer `reg` (in or out of `[0,255]`), the operation raises no
validation error and passes `reg` unchanged in its single driver
invocation. -/
theorem reg_addr_unchecked (d : Driver) (addr value : Int) (byteorder : String)
    (bs : List Nat) (nbytes : Nat) (reg : Int)
    (ha : 0 ≤ addr ∧ addr ≤ 127) (hv : 0 ≤ value ∧ value ≤ 255) :
    ((write_byte d addr reg value).calls = [.writeto_mem addr reg [value.toNat]] ∧
      validationFree (write_byte d addr reg value)) ∧
    ((read_byte d addr reg).calls = [.readfrom_mem addr reg 1] ∧
      validationFree (read_byte d addr reg)) ∧
    ((∃ data, (write_word d addr reg value byteorder).calls =
        [.writeto_mem addr reg data]) ∧
      validationFree (write_word d addr reg value byteorder)) ∧
    ((read_word d addr reg byteorder).calls = [.readfrom_mem addr reg 2] ∧
      validationFree (read_word d addr reg byteorder)) ∧
    ((write_bytes d addr reg (.bytes bs)).calls = [.writeto_mem addr reg bs] ∧
      validationFree (write_bytes d addr reg (.bytes bs))) ∧
    ((read_bytes d addr reg nbytes).calls = [.readfrom_mem addr reg nbytes] ∧
      validationFree (read_bytes d addr reg nbytes)) := by
  have hv2 : 0 ≤ value ∧ value ≤ 65535 := ⟨hv.1, by omega⟩
  exact ⟨write_byte_good d reg ha hv, read_byte_good d reg ha,
    write_word_good d reg byteorder ha hv2, read_word_good d reg byteorder ha,
    write_bytes_bytes_good d reg bs ha, read_bytes_good d reg nbytes ha⟩

/-- Witness for C8 at the out-of-convention register address 999. -/
theorem reg_addr_unchecked_witness :
    (write_byte okDriver 80 999 7).calls = [.writeto_mem 80 999 [7]] ∧
    (read_byte okDriver 80 999).calls = [.readfrom_mem 80 999 1] :=
  ⟨(reg_addr_unchecked okDriver 80 7 "big" [1] 1 999 (by decide) (by decide)).1.1,
   (reg_addr_unchecked okDriver 80 7 "big" [1] 1 999 (by decide) (by decide)).2.1.1⟩

/-- C10: any byteorder tag other than exactly "big" is silently treated as
little-endian by both `write_word` and `read_word`, and no validation error
is ever raised for an unrecognized tag. -/
theorem byteorder_tag_lenient (d : Driver) (addr reg value : Int) (order : String) :
    (order ≠ "big" →
      write_word d addr reg value order = write_word d addr reg value "little" ∧
      read_word d addr reg order = read_word d addr reg "little") ∧
    (0 ≤ addr ∧ addr ≤ 127 → 0 ≤ value ∧ value ≤ 65535 →
      validationFree (write_word d addr reg value order) ∧
      validationFree (read_word d addr reg order)) := by
  constructor
  · intro h
    have hl : ¬ (("little" : String) = "big") := by decide
    constructor
    · simp only [write_word, if_neg h, if_neg hl]
    · simp only [read_word, if_neg h, if_neg hl]
  · intro ha hv
    exact ⟨(write_word_good d reg order ha hv).2, (read_word_good d reg order ha).2⟩

/-- Witness for C10 at the misspelled tag "BIG". -/
theorem byteorder_tag_lenient_witness :
    write_word okDriver 80 2 5 "BIG" = write_word okDriver 80 2 5 "little" ∧
    validationFree (write_word okDriver 80 2 5 "BIG") :=
  ⟨((byteorder_tag_lenient okDriver 80 2 5 "BIG").1 (by decide)).1,
   ((byteorder_tag_lenient okDriver 80 2 5 "BIG").2 (by decide) (by decide)).1⟩

end EasyI2C
